import Mathlib

/-!
Shallow embedding of the append-only key-value store in `kvstore.py`
(with `load_data.py` and `main.py` as near-duplicate variants).

Python strings are modelled as lists of Unicode code points (`List Nat`);
the byte content of the data file `data.db` is modelled the same way.
`isSpace` is the exact whitespace set of CPython's `str.split()` and
`str.strip()` with no argument, and `pyUpperChar` agrees with
`str.upper()` on every comparison against the ASCII command verbs that
the program performs (see its doc comment for the exact boundary).
-/

/-- A Python string: a list of Unicode code points. -/
abbrev PyStr := List Nat

/-- The exact whitespace set recognised by CPython's `str.split()` and
`str.strip()` with no argument (`str.isspace()`): U+0009..U+000D,
U+001C..U+001F, U+0020, U+0085, U+00A0, U+1680, U+2000..U+200A,
U+2028, U+2029, U+202F, U+205F and U+3000. -/
def isSpace (c : Nat) : Bool :=
  decide ((9 ≤ c ∧ c ≤ 13) ∨ (28 ≤ c ∧ c ≤ 32) ∨ c = 133 ∨ c = 160 ∨
    c = 5760 ∨ (8192 ≤ c ∧ c ≤ 8202) ∨ c = 8232 ∨ c = 8233 ∨ c = 8239 ∨
    c = 8287 ∨ c = 12288)

/-- One character of Python `str.upper()`, as far as the program can
observe it.  ASCII lower-case letters map to upper-case; U+017F (long s,
whose uppercase is `S`) and U+0131 (dotless i, whose uppercase is `I`)
are the only other code points whose uppercase is a single ASCII
character, so they are mapped as well; every remaining code point is
left unchanged.  The program only ever compares an upper-cased token
against the ASCII tokens `SET`, `GET` and `EXIT`; all remaining Unicode
case mappings either target non-ASCII characters or expand one
character to several (changing the length), so none of them can make a
token compare equal to those, and the character-wise map below decides
these comparisons exactly as `str.upper()` does. -/
def pyUpperChar (c : Nat) : Nat :=
  if 97 ≤ c ∧ c ≤ 122 then c - 32
  else if c = 383 then 83
  else if c = 305 then 73
  else c

/-- Python `str.upper()` (ASCII range). -/
def pyUpper (s : PyStr) : PyStr := s.map pyUpperChar

/-- Drop leading whitespace (the left half of `str.strip()` and the
skipping step of `str.split()`). -/
def dropSpaces (s : PyStr) : PyStr := s.dropWhile isSpace

/-- The maximal leading run of non-whitespace characters: the next token
taken by `str.split()`. -/
def takeTok (s : PyStr) : PyStr := s.takeWhile (fun c => !isSpace c)

/-- What remains after the next token taken by `str.split()`. -/
def dropTok (s : PyStr) : PyStr := s.dropWhile (fun c => !isSpace c)

/-- Python `s.split(maxsplit = n)` with the default (whitespace)
separator: at most `n` splits are performed; tokens are maximal runs of
non-whitespace; once the split budget is exhausted the remainder, with
its leading whitespace removed, is the final field (and is omitted when
it is empty). -/
def pySplitN : Nat → PyStr → List PyStr
  | 0, s => if dropSpaces s = [] then [] else [dropSpaces s]
  | n + 1, s =>
      if dropSpaces s = [] then []
      else takeTok (dropSpaces s) :: pySplitN n (dropTok (dropSpaces s))

/-- Drop trailing whitespace (the right half of `str.strip()`). -/
def rstripSpaces (s : PyStr) : PyStr := (s.reverse.dropWhile isSpace).reverse

/-- Python `str.strip()` with no argument (ASCII whitespace range). -/
def pyStrip (s : PyStr) : PyStr := rstripSpaces (dropSpaces s)

/-- Whether `s.encode("utf-8", errors="strict")` succeeds for a Python
string: it fails exactly on surrogate code points U+D800 .. U+DFFF. -/
def utf8Encodable (s : PyStr) : Bool :=
  s.all fun c => decide (c < 55296 ∨ 57343 < c)

/-- The code points of the token `SET`. -/
def SETtok : PyStr := [83, 69, 84]

/-- The code points of the token `GET`. -/
def GETtok : PyStr := [71, 69, 84]

/-- The code points of the not-found sentinel `NULL` printed by the
REPL's GET branch. -/
def NULLtok : PyStr := [78, 85, 76, 76]

/-- Iterating a Python text-mode file splits the content into lines at
`\n`, `\r\n` or `\r` (universal newlines); a final chunk without a
terminator is still a line, and an empty file yields no lines.  The
accumulator holds the current line's characters in reverse. -/
def fileLinesGo (acc : List Nat) : List Nat → List (List Nat)
  | [] => if acc = [] then [] else [acc.reverse]
  | [c] =>
      if c = 10 ∨ c = 13 then [acc.reverse]
      else if acc = [] then [[c]] else [(c :: acc).reverse]
  | c :: d :: rest =>
      if c = 10 then acc.reverse :: fileLinesGo [] (d :: rest)
      else if c = 13 then
        if d = 10 then acc.reverse :: fileLinesGo [] rest
        else acc.reverse :: fileLinesGo [] (d :: rest)
      else fileLinesGo (c :: acc) (d :: rest)

/-- The lines obtained by iterating the data file's content, with line
terminators removed (as `load_data` does with `rstrip("\n")` after
universal-newline translation). -/
def fileLines (s : List Nat) : List (List Nat) := fileLinesGo [] s

/-- The in-memory index: a list of `(key, value)` pairs (the assignment
forbids dicts, so `kvstore.py` uses exactly this representation). -/
abbrev Index := List (PyStr × PyStr)

/-- `_apply_set_in_memory` from `kvstore.py` (and `_set_in_memory` from
`main.py`): linear scan that replaces the first pair with a matching key
and otherwise appends the new pair at the end. -/
def _apply_set_in_memory (index : Index) (key value : PyStr) : Index :=
  match index with
  | [] => [(key, value)]
  | (k, v) :: rest =>
      if k = key then (key, value) :: rest
      else (k, v) :: _apply_set_in_memory rest key value

/-- The linear-scan lookup used by `KeyValueStore.get`. -/
def index_lookup (index : Index) (key : PyStr) : Option PyStr :=
  match index with
  | [] => none
  | (k, v) :: rest => if k = key then some v else index_lookup rest key

-- Sanity checks of the string primitives on concrete inputs.
example : pySplitN 2 [83, 69, 84, 32, 107, 32, 118] = [SETtok, [107], [118]] := by decide
example : pySplitN 2 [83, 69, 84, 32, 32, 118] = [SETtok, [118]] := by decide
example : pySplitN 2 [83, 69, 84, 32, 107, 32] = [SETtok, [107]] := by decide
example : pySplitN 2 [83, 69, 84, 32, 107, 32, 32, 120, 32] = [SETtok, [107], [120, 32]] := by decide
example : pyStrip [32, 97, 32, 98, 32] = [97, 32, 98] := by decide
example : pyUpper [115, 101, 116] = SETtok := by decide
example : fileLines [83, 69, 84, 32, 97, 32, 98, 10] = [[83, 69, 84, 32, 97, 32, 98]] := by decide
example : fileLines [97, 13, 10, 98] = [[97], [98]] := by decide
example : fileLines [97, 13, 98, 10] = [[97], [98]] := by decide
example : fileLines [10] = [([] : List Nat)] := by decide
example : fileLines [] = [] := by decide
example : utf8Encodable [55296] = false := by decide

/-- The result of `load_data` in `kvstore.py`: the rebuilt index together
with the `(total, applied, skipped)` line counters it returns. -/
structure LoadResult where
  index : Index
  total : Nat
  applied : Nat
  skipped : Nat
deriving DecidableEq, Repr

/-- One iteration of the replay loop in `load_data` (`kvstore.py`,
lines 88-103): blank lines are skipped; a line splitting (with
`maxsplit=2`) into exactly three parts whose first part upper-cases to
`SET` is applied to the index with `_apply_set_in_memory`; every other
line is counted as skipped and replay continues. -/
def load_step (st : LoadResult) (line : PyStr) : LoadResult :=
  if pyStrip line = [] then
    { st with total := st.total + 1, skipped := st.skipped + 1 }
  else
    match pySplitN 2 line with
    | [cmd, key, value] =>
        if pyUpper cmd = SETtok then
          { st with index := _apply_set_in_memory st.index key value,
                    total := st.total + 1, applied := st.applied + 1 }
        else
          { st with total := st.total + 1, skipped := st.skipped + 1 }
    | _ => { st with total := st.total + 1, skipped := st.skipped + 1 }

/-- `load_data` from `kvstore.py`: replay the given file lines into the
index handed over by the caller (the constructor passes an empty one),
returning the final index and the counters. -/
def load_data (index : Index) (lines : List PyStr) : LoadResult :=
  lines.foldl load_step { index := index, total := 0, applied := 0, skipped := 0 }

/-- The index-only effect of one replayed line; extensionally the
`index` projection of `load_step`. -/
def lineStep (index : Index) (line : PyStr) : Index :=
  if pyStrip line = [] then index
  else
    match pySplitN 2 line with
    | [cmd, key, value] =>
        if pyUpper cmd = SETtok then _apply_set_in_memory index key value
        else index
    | _ => index

/-- The decode outcome of one log line: `some (key, value)` when the
line is a well-formed record (splits into exactly three parts with
maxsplit 2 and its verb upper-cases to `SET`), `none` otherwise. -/
def parseRecord (line : PyStr) : Option (PyStr × PyStr) :=
  match pySplitN 2 line with
  | [cmd, key, value] => if pyUpper cmd = SETtok then some (key, value) else none
  | _ => none

/-- Modelled from the spec's words for the recovery invariant: the value
of the last well-formed record in the log whose key equals `key`, and
`none` when no well-formed record has that key. -/
def specLastRecordValue (lines : List PyStr) (key : PyStr) : Option PyStr :=
  (((lines.filterMap parseRecord).filter fun p => p.1 == key).getLast?).map fun p => p.2

/-- `KVError` from `kvstore.py`; the two distinct failure messages raised
by `KeyValueStore.set` are modelled as distinct constructors. -/
inductive KVError where
  | invalidUtf8
  | writeFailed
deriving DecidableEq, Repr

/-- The store: its in-memory index and the content of `data.db`. -/
structure KeyValueStore where
  index : Index
  content : List Nat
deriving DecidableEq, Repr

/-- `KeyValueStore.__init__`: start from an empty index and replay the
existing data file (a missing file is the empty content). -/
def KeyValueStore.init (content : List Nat) : KeyValueStore :=
  { index := (load_data [] (fileLines content)).index, content := content }

/-- The bytes appended by one SET: the f-string `SET {key} {value}\n`. -/
def setRecordLine (key value : PyStr) : List Nat :=
  SETtok ++ [32] ++ key ++ [32] ++ value ++ [10]

/-- `KeyValueStore.set` from `kvstore.py`: first the strict UTF-8
round-trip of key and value (raising `KVError("invalid utf-8 input")` on
surrogates), then the durable append (an OS-level failure of
write/flush/fsync, modelled by the `writeOk` flag, raises
`KVError("write failed")`), and only after a successful append the
in-memory update `_apply_set_in_memory`. -/
def KeyValueStore.set (writeOk : Bool) (self : KeyValueStore)
    (key value : PyStr) : Except KVError KeyValueStore :=
  if utf8Encodable key && utf8Encodable value then
    if writeOk then
      Except.ok { index := _apply_set_in_memory self.index key value,
                  content := self.content ++ setRecordLine key value }
    else Except.error KVError.writeFailed
  else Except.error KVError.invalidUtf8

/-- `KeyValueStore.get`: linear scan of the index, `none` when absent. -/
def KeyValueStore.get (self : KeyValueStore) (key : PyStr) : Option PyStr :=
  index_lookup self.index key

/-- `_parse_command` from `kvstore.py`: strip the line, split with
maxsplit 2, upper-case the verb, return it with at most two argument
tokens; a blank line yields an empty verb and no arguments. -/
def _parse_command (line : PyStr) : PyStr × List PyStr :=
  let s := pyStrip line
  if s = [] then ([], [])
  else
    match pySplitN 2 s with
    | [] => ([], [])
    | cmd :: args => (pyUpper cmd, args)

/-- The REPL's GET response (`run_repl`, `kvstore.py` line 308): the
value when present, otherwise the line `NULL`. -/
def getResponse (store : KeyValueStore) (key : PyStr) : PyStr :=
  match store.get key with
  | some v => v
  | none => NULLtok

/-- A sequence of SET commands issued in the current run, each with a
succeeding OS write; a failing SET leaves the store unchanged and the
REPL loop continues, exactly as `run_repl` catches `KVError`. -/
def runSets (store : KeyValueStore) : List (PyStr × PyStr) → KeyValueStore
  | [] => store
  | (key, value) :: rest =>
      match KeyValueStore.set true store key value with
      | Except.ok store' => runSets store' rest
      | Except.error _ => runSets store rest

deriving instance DecidableEq for Except

-- Sanity checks against the concrete behaviour of the Python code.
example : (load_data [] [[66, 65, 68], [83, 69, 84, 32, 103, 32, 116]]).index
    = [([103], [116])] := by decide
example : (load_data [] [[66, 65, 68], [83, 69, 84, 32, 103, 32, 116]]).skipped = 1 := by decide
example : KeyValueStore.set true { index := [], content := [] } [] [118]
    = Except.ok { index := [([], [118])], content := [83, 69, 84, 32, 32, 118, 10] } := by decide
example : (KeyValueStore.init [83, 69, 84, 32, 32, 118, 10]).get [] = none := by decide
example : _parse_command [115, 101, 116, 32, 97, 32, 98] = (SETtok, [[97], [98]]) := by decide
example : getResponse (KeyValueStore.init []) [97] = NULLtok := by decide
example : specLastRecordValue [[83, 69, 84, 32, 97, 32, 98], [83, 69, 84, 32, 97, 32, 99]] [97]
    = some [99] := by decide
-- Python splits on U+001C..U+001F, U+0085, U+00A0 and the other Unicode
-- spaces, so `SET\x1ca b` is a well-formed record and a U+00A0 key is a
-- whitespace-containing key.
example : parseRecord [83, 69, 84, 28, 97, 32, 98] = some ([97], [98]) := by decide
example : isSpace 160 = true := by decide
example : isSpace 133 = true := by decide
-- `str.upper()` maps U+017F (long s) to `S`, so the verb of the line
-- `ſET z w` upper-cases to `SET` and the record is applied during replay.
example : parseRecord [383, 69, 84, 32, 122, 32, 119] = some ([122], [119]) := by decide
example : specLastRecordValue (fileLines [83, 69, 84, 28, 122, 32, 119, 10]) [122]
    = some [119] := by decide

/-! ### Lemmas about the in-memory index -/

lemma apply_nil (key value : PyStr) :
    _apply_set_in_memory [] key value = [(key, value)] := rfl

lemma apply_cons (k v : PyStr) (rest : Index) (key value : PyStr) :
    _apply_set_in_memory ((k, v) :: rest) key value
      = if k = key then (key, value) :: rest
        else (k, v) :: _apply_set_in_memory rest key value := rfl

lemma lookup_nil (key : PyStr) : index_lookup [] key = none := rfl

lemma lookup_cons (k v : PyStr) (rest : Index) (key : PyStr) :
    index_lookup ((k, v) :: rest) key
      = if k = key then some v else index_lookup rest key := rfl

lemma index_lookup_apply_self (index : Index) (key value : PyStr) :
    index_lookup (_apply_set_in_memory index key value) key = some value := by
  induction index with
  | nil => simp [apply_nil, lookup_cons, lookup_nil]
  | cons p rest ih =>
      obtain ⟨k, v⟩ := p
      by_cases h : k = key
      · simp [apply_cons, lookup_cons, h]
      · simp [apply_cons, lookup_cons, h, ih]

lemma index_lookup_apply_ne (index : Index) (key value key' : PyStr)
    (h : key' ≠ key) :
    index_lookup (_apply_set_in_memory index key value) key'
      = index_lookup index key' := by
  induction index with
  | nil => simp [apply_nil, lookup_cons, lookup_nil, Ne.symm h]
  | cons p rest ih =>
      obtain ⟨k, v⟩ := p
      by_cases hk : k = key
      · subst hk
        simp [apply_cons, lookup_cons, Ne.symm h, ih]
      · simp [apply_cons, lookup_cons, hk, ih]

lemma mem_keys_apply (index : Index) (key value : PyStr) :
    ∀ a, a ∈ (_apply_set_in_memory index key value).map Prod.fst →
      a = key ∨ a ∈ index.map Prod.fst := by
  induction index with
  | nil =>
      intro a ha
      left
      simpa [apply_nil] using ha
  | cons p rest ih =>
      obtain ⟨k, v⟩ := p
      intro a ha
      by_cases hk : k = key
      · rw [apply_cons, if_pos hk] at ha
        rcases (by simpa using ha : a = key ∨ a ∈ rest.map Prod.fst) with h1 | h1
        · exact Or.inl h1
        · exact Or.inr (by simp [h1])
      · rw [apply_cons, if_neg hk] at ha
        rcases (by simpa using ha :
            a = k ∨ a ∈ (_apply_set_in_memory rest key value).map Prod.fst) with h1 | h1
        · exact Or.inr (by simp [h1])
        · rcases ih a h1 with h2 | h2
          · exact Or.inl h2
          · exact Or.inr (by simp [h2])

lemma nodup_keys_apply (index : Index) (key value : PyStr)
    (h : (index.map Prod.fst).Nodup) :
    ((_apply_set_in_memory index key value).map Prod.fst).Nodup := by
  induction index with
  | nil => simp [apply_nil]
  | cons p rest ih =>
      obtain ⟨k, v⟩ := p
      simp only [List.map_cons, List.nodup_cons] at h
      by_cases hk : k = key
      · subst hk
        rw [apply_cons, if_pos rfl]
        simpa [List.nodup_cons] using h
      · rw [apply_cons, if_neg hk]
        simp only [List.map_cons, List.nodup_cons]
        refine ⟨?_, ih h.2⟩
        intro hmem
        rcases mem_keys_apply rest key value k hmem with h1 | h1
        · exact hk h1
        · exact h.1 h1

lemma filter_key_nil (index : Index) (key : PyStr)
    (h : key ∉ index.map Prod.fst) :
    index.filter (fun p => p.1 == key) = [] := by
  induction index with
  | nil => simp
  | cons p rest ih =>
      obtain ⟨k, v⟩ := p
      simp only [List.map_cons, List.mem_cons] at h
      push_neg at h
      have hk : (k == key) = false := by
        simpa [beq_iff_eq] using Ne.symm h.1
      simp [List.filter_cons, hk, ih h.2]

lemma filter_key_length_le_one (index : Index) (key : PyStr)
    (h : (index.map Prod.fst).Nodup) :
    (index.filter (fun p => p.1 == key)).length ≤ 1 := by
  induction index with
  | nil => simp
  | cons p rest ih =>
      obtain ⟨k, v⟩ := p
      simp only [List.map_cons, List.nodup_cons] at h
      by_cases hk : k = key
      · subst hk
        simp [List.filter_cons, filter_key_nil rest k h.1]
      · have hkb : (k == key) = false := by simpa [beq_iff_eq] using hk
        simpa [List.filter_cons, hkb] using ih h.2

/-! ### Lemmas about the string primitives -/

lemma isSpace_space : isSpace 32 = true := by decide

lemma isSpace_false_iff (c : Nat) :
    isSpace c = false
      ↔ ¬((9 ≤ c ∧ c ≤ 13) ∨ (28 ≤ c ∧ c ≤ 32) ∨ c = 133 ∨ c = 160 ∨
          c = 5760 ∨ (8192 ≤ c ∧ c ≤ 8202) ∨ c = 8232 ∨ c = 8233 ∨ c = 8239 ∨
          c = 8287 ∨ c = 12288) := by
  simp [isSpace]

lemma dropWhile_append_split (p : Nat → Bool) (A B : List Nat) :
    (A ++ B).dropWhile p
      = if A.dropWhile p = [] then B.dropWhile p else A.dropWhile p ++ B := by
  induction A with
  | nil => simp
  | cons a A' ih =>
      by_cases ha : p a = true
      · simpa [List.dropWhile_cons, ha] using ih
      · simp [List.dropWhile_cons, ha]

lemma takeTok_token_append (w r : PyStr) (h : ∀ c ∈ w, isSpace c = false) :
    takeTok (w ++ r) = w ++ takeTok r := by
  induction w with
  | nil => simp
  | cons c w' ih =>
      have hc : isSpace c = false := h c (by simp)
      have ih' := ih fun d hd => h d (by simp [hd])
      simpa [takeTok, List.takeWhile_cons, hc] using ih'

lemma dropTok_token_append (w r : PyStr) (h : ∀ c ∈ w, isSpace c = false) :
    dropTok (w ++ r) = dropTok r := by
  induction w with
  | nil => simp
  | cons c w' ih =>
      have hc : isSpace c = false := h c (by simp)
      have ih' := ih fun d hd => h d (by simp [hd])
      simpa [dropTok, List.dropWhile_cons, hc] using ih'

lemma dropSpaces_cons_nonspace (c : Nat) (t : PyStr) (hc : isSpace c = false) :
    dropSpaces (c :: t) = c :: t := by
  simp [dropSpaces, List.dropWhile_cons, hc]

lemma dropSpaces_head_nonspace :
    ∀ (l : PyStr) (c : Nat) (t : PyStr), dropSpaces l = c :: t → isSpace c = false := by
  intro l
  induction l with
  | nil => intro c t h; simp [dropSpaces] at h
  | cons a l' ih =>
      intro c t h
      by_cases ha : isSpace a = true
      · rw [dropSpaces, List.dropWhile_cons, if_pos ha] at h
        exact ih c t h
      · rw [dropSpaces, List.dropWhile_cons, if_neg ha] at h
        injection h with h1 h2
        rw [← h1]
        simpa using ha

lemma rstrip_token_append (w r : PyStr) (hw : w ≠ []) (h : ∀ c ∈ w, isSpace c = false) :
    rstripSpaces (w ++ r) = w ++ rstripSpaces r := by
  unfold rstripSpaces
  rw [List.reverse_append, dropWhile_append_split]
  by_cases hr : r.reverse.dropWhile isSpace = []
  · rw [if_pos hr]
    have hw' : w.reverse.dropWhile isSpace = w.reverse := by
      cases hrev : w.reverse with
      | nil => simp
      | cons c t =>
          have hc : isSpace c = false := h c (by rw [← List.mem_reverse, hrev]; simp)
          simp [List.dropWhile_cons, hc]
    rw [hw', List.reverse_reverse, hr]
    simp
  · rw [if_neg hr, List.reverse_append, List.reverse_reverse]

lemma pyStrip_token_append (w r : PyStr) (hw : w ≠ []) (h : ∀ c ∈ w, isSpace c = false) :
    pyStrip (w ++ r) = w ++ rstripSpaces r := by
  unfold pyStrip
  have hd : dropSpaces (w ++ r) = w ++ r := by
    cases w with
    | nil => exact absurd rfl hw
    | cons c w' =>
        have hc : isSpace c = false := h c (by simp)
        simpa using dropSpaces_cons_nonspace c (w' ++ r) hc
  rw [hd, rstrip_token_append w r hw h]

lemma pyStrip_eq_nil_iff (l : PyStr) : pyStrip l = [] ↔ dropSpaces l = [] := by
  constructor
  · intro h
    unfold pyStrip rstripSpaces at h
    have h2 : (dropSpaces l).reverse.dropWhile isSpace = [] :=
      List.reverse_eq_nil_iff.mp h
    have hall := List.dropWhile_eq_nil_iff.mp h2
    cases hd : dropSpaces l with
    | nil => rfl
    | cons c t =>
        have hc : isSpace c = false := dropSpaces_head_nonspace l c t hd
        have hc' : isSpace c = true := hall c (by rw [hd]; simp)
        rw [hc'] at hc
        cases hc
  · intro h
    unfold pyStrip
    rw [h]
    rfl

lemma pySplitN_of_dropSpaces_nil (n : Nat) (l : PyStr) (h : dropSpaces l = []) :
    pySplitN n l = [] := by
  cases n <;> simp [pySplitN, h]

lemma pySplitN_nil (n : Nat) : pySplitN n [] = [] :=
  pySplitN_of_dropSpaces_nil n [] rfl

lemma pySplitN_cons_space (n : Nat) (c : Nat) (t : PyStr) (hc : isSpace c = true) :
    pySplitN n (c :: t) = pySplitN n t := by
  have hd : dropSpaces (c :: t) = dropSpaces t := by
    simp [dropSpaces, List.dropWhile_cons, hc]
  cases n <;> simp [pySplitN, hd]

lemma pySplitN_token (n : Nat) (w t : PyStr) (hw : w ≠ [])
    (hsp : ∀ c ∈ w, isSpace c = false) :
    pySplitN (n + 1) (w ++ 32 :: t) = w :: pySplitN n (32 :: t) := by
  cases w with
  | nil => exact absurd rfl hw
  | cons c w' =>
      have hc : isSpace c = false := hsp c (by simp)
      have hd : dropSpaces ((c :: w') ++ 32 :: t) = (c :: w') ++ 32 :: t := by
        simpa using dropSpaces_cons_nonspace c (w' ++ 32 :: t) hc
      have htk : takeTok ((c :: w') ++ 32 :: t) = c :: w' := by
        rw [takeTok_token_append (c :: w') (32 :: t) hsp]
        simp [takeTok, List.takeWhile_cons, isSpace_space]
      have hdt : dropTok ((c :: w') ++ 32 :: t) = 32 :: t := by
        rw [dropTok_token_append (c :: w') (32 :: t) hsp]
        simp [dropTok, List.dropWhile_cons, isSpace_space]
      simp only [List.cons_append] at hd htk hdt
      simp [pySplitN, hd, htk, hdt]

lemma pySplitN_single_token (n : Nat) (w : PyStr) (hw : w ≠ [])
    (hsp : ∀ c ∈ w, isSpace c = false) :
    pySplitN (n + 1) w = [w] := by
  cases w with
  | nil => exact absurd rfl hw
  | cons c w' =>
      have hc : isSpace c = false := hsp c (by simp)
      have hd : dropSpaces (c :: w') = c :: w' := dropSpaces_cons_nonspace c w' hc
      have htk : takeTok (c :: w') = c :: w' := by
        have := takeTok_token_append (c :: w') [] hsp
        simpa [takeTok] using this
      have hdt : dropTok (c :: w') = [] := by
        have := dropTok_token_append (c :: w') [] hsp
        simpa [dropTok] using this
      simp [pySplitN, hd, htk, hdt, pySplitN_nil]

/-! ### Lemmas about upper-casing and verb tokens -/

lemma upperChar_nonspace (c u : Nat) (h : pyUpperChar c = u)
    (hu : isSpace u = false) : isSpace c = false := by
  by_cases h1 : 97 ≤ c ∧ c ≤ 122
  · rw [isSpace_false_iff]
    omega
  · by_cases h2 : c = 383
    · subst h2
      decide
    · by_cases h3 : c = 305
      · subst h3
        decide
      · unfold pyUpperChar at h
        rw [if_neg h1, if_neg h2, if_neg h3] at h
        rw [h]
        exact hu

lemma upper_token_shape (w u : PyStr) (h : pyUpper w = u) (hne : u ≠ [])
    (hall : ∀ d ∈ u, isSpace d = false) :
    w ≠ [] ∧ ∀ c ∈ w, isSpace c = false := by
  constructor
  · intro hwnil
    rw [hwnil] at h
    exact hne h.symm
  · intro c hc
    have hmem : pyUpperChar c ∈ u := by
      rw [← h]
      exact List.mem_map_of_mem pyUpperChar hc
    exact upperChar_nonspace c (pyUpperChar c) rfl (hall _ hmem)

lemma pyUpper_SETtok : pyUpper SETtok = SETtok := by decide

lemma pyUpper_GETtok : pyUpper GETtok = GETtok := by decide

lemma SETtok_shape (w : PyStr) (h : pyUpper w = SETtok) :
    w ≠ [] ∧ ∀ c ∈ w, isSpace c = false :=
  upper_token_shape w SETtok h (by decide) (by decide)

lemma GETtok_shape (w : PyStr) (h : pyUpper w = GETtok) :
    w ≠ [] ∧ ∀ c ∈ w, isSpace c = false :=
  upper_token_shape w GETtok h (by decide) (by decide)

/-! ### Relating `load_step`, `lineStep` and `parseRecord` -/

lemma parseRecord_strip_ne_nil (l : PyStr) (k v : PyStr)
    (h : parseRecord l = some (k, v)) : pyStrip l ≠ [] := by
  intro hs
  have hd : dropSpaces l = [] := (pyStrip_eq_nil_iff l).mp hs
  rw [parseRecord, pySplitN_of_dropSpaces_nil 2 l hd] at h
  cases h

lemma load_step_malformed (st : LoadResult) (l : PyStr)
    (h1 : pyStrip l ≠ []) (h2 : parseRecord l = none) :
    load_step st l = { st with total := st.total + 1, skipped := st.skipped + 1 } := by
  unfold load_step
  rw [if_neg h1]
  unfold parseRecord at h2
  cases hs : pySplitN 2 l with
  | nil => rfl
  | cons a rest =>
      cases rest with
      | nil => rfl
      | cons b rest2 =>
          cases rest2 with
          | nil => rfl
          | cons c rest3 =>
              cases rest3 with
              | cons d rest4 => rfl
              | nil =>
                  rw [hs] at h2
                  simp only [] at h2
                  by_cases hu : pyUpper a = SETtok
                  · rw [if_pos hu] at h2
                    cases h2
                  · simp [hu]

lemma load_step_blank (st : LoadResult) (l : PyStr) (h : pyStrip l = []) :
    load_step st l = { st with total := st.total + 1, skipped := st.skipped + 1 } := by
  unfold load_step
  rw [if_pos h]

lemma load_step_wellformed (st : LoadResult) (l : PyStr) (k v : PyStr)
    (h : parseRecord l = some (k, v)) :
    load_step st l = { st with index := _apply_set_in_memory st.index k v,
                               total := st.total + 1, applied := st.applied + 1 } := by
  unfold load_step
  rw [if_neg (parseRecord_strip_ne_nil l k v h)]
  unfold parseRecord at h
  cases hs : pySplitN 2 l with
  | nil => rw [hs] at h; cases h
  | cons a rest =>
      cases rest with
      | nil => rw [hs] at h; cases h
      | cons b rest2 =>
          cases rest2 with
          | nil => rw [hs] at h; cases h
          | cons c rest3 =>
              cases rest3 with
              | cons d rest4 => rw [hs] at h; cases h
              | nil =>
                  rw [hs] at h
                  simp only [] at h
                  by_cases hu : pyUpper a = SETtok
                  · rw [if_pos hu] at h
                    injection h with hkv
                    injection hkv with hk hv
                    subst hk
                    subst hv
                    simp [hu]
                  · rw [if_neg hu] at h
                    cases h

lemma lineStep_none (index : Index) (l : PyStr) (h : parseRecord l = none) :
    lineStep index l = index := by
  unfold lineStep
  by_cases h1 : pyStrip l = []
  · rw [if_pos h1]
  · rw [if_neg h1]
    unfold parseRecord at h
    cases hs : pySplitN 2 l with
    | nil => rfl
    | cons a rest =>
        cases rest with
        | nil => rfl
        | cons b rest2 =>
            cases rest2 with
            | nil => rfl
            | cons c rest3 =>
                cases rest3 with
                | cons d rest4 => rfl
                | nil =>
                    rw [hs] at h
                    simp only [] at h
                    by_cases hu : pyUpper a = SETtok
                    · rw [if_pos hu] at h
                      cases h
                    · simp [hu]

lemma lineStep_some (index : Index) (l : PyStr) (k v : PyStr)
    (h : parseRecord l = some (k, v)) :
    lineStep index l = _apply_set_in_memory index k v := by
  unfold lineStep
  rw [if_neg (parseRecord_strip_ne_nil l k v h)]
  unfold parseRecord at h
  cases hs : pySplitN 2 l with
  | nil => rw [hs] at h; cases h
  | cons a rest =>
      cases rest with
      | nil => rw [hs] at h; cases h
      | cons b rest2 =>
          cases rest2 with
          | nil => rw [hs] at h; cases h
          | cons c rest3 =>
              cases rest3 with
              | cons d rest4 => rw [hs] at h; cases h
              | nil =>
                  rw [hs] at h
                  simp only [] at h
                  by_cases hu : pyUpper a = SETtok
                  · rw [if_pos hu] at h
                    injection h with hkv
                    injection hkv with hk hv
                    subst hk
                    subst hv
                    simp [hu]
                  · rw [if_neg hu] at h
                    cases h

lemma load_step_index (st : LoadResult) (l : PyStr) :
    (load_step st l).index = lineStep st.index l := by
  by_cases h1 : pyStrip l = []
  · rw [load_step_blank st l h1]
    unfold lineStep
    rw [if_pos h1]
  · cases hp : parseRecord l with
    | none => rw [load_step_malformed st l h1 hp, lineStep_none st.index l hp]
    | some p =>
        obtain ⟨k, v⟩ := p
        rw [load_step_wellformed st l k v hp, lineStep_some st.index l k v hp]

lemma foldl_load_step_index (lines : List PyStr) :
    ∀ st : LoadResult,
      (List.foldl load_step st lines).index = List.foldl lineStep st.index lines := by
  induction lines with
  | nil => intro st; rfl
  | cons l ls ih =>
      intro st
      rw [List.foldl_cons, List.foldl_cons, ih, load_step_index]

lemma load_data_index (index : Index) (lines : List PyStr) :
    (load_data index lines).index = List.foldl lineStep index lines := by
  unfold load_data
  exact foldl_load_step_index lines _

/-! ### Recovery rebuilds the last-write-wins view of the log -/

lemma spec_nil (k : PyStr) : specLastRecordValue [] k = none := by
  simp [specLastRecordValue]

lemma spec_cons_none (l : PyStr) (ls : List PyStr) (k : PyStr)
    (h : parseRecord l = none) :
    specLastRecordValue (l :: ls) k = specLastRecordValue ls k := by
  simp [specLastRecordValue, List.filterMap_cons, h]

lemma spec_cons_some_ne (l : PyStr) (ls : List PyStr) (k k0 v0 : PyStr)
    (h : parseRecord l = some (k0, v0)) (hne : (k0 == k) = false) :
    specLastRecordValue (l :: ls) k = specLastRecordValue ls k := by
  simp [specLastRecordValue, List.filterMap_cons, h, List.filter_cons, hne]

lemma lookup_foldl_lineStep (lines : List PyStr) :
    ∀ (index : Index) (k : PyStr),
      index_lookup (List.foldl lineStep index lines) k
        = (specLastRecordValue lines k <|> index_lookup index k) := by
  induction lines with
  | nil =>
      intro index k
      simp [spec_nil]
  | cons l ls ih =>
      intro index k
      rw [List.foldl_cons]
      cases hp : parseRecord l with
      | none =>
          rw [lineStep_none index l hp, ih, spec_cons_none l ls k hp]
      | some p =>
          obtain ⟨k0, v0⟩ := p
          rw [lineStep_some index l k0 v0 hp, ih]
          by_cases hk : k0 = k
          · subst hk
            cases hF : (ls.filterMap parseRecord).filter (fun p => p.1 == k0) with
            | nil =>
                have hspec : specLastRecordValue ls k0 = none := by
                  simp [specLastRecordValue, hF]
                have hspec2 : specLastRecordValue (l :: ls) k0 = some v0 := by
                  simp [specLastRecordValue, List.filterMap_cons, hp, List.filter_cons, hF]
                rw [hspec, hspec2]
                simp [index_lookup_apply_self]
            | cons q F' =>
                obtain ⟨x, hx⟩ := Option.isSome_iff_exists.mp
                  (List.getLast?_isSome.mpr (List.cons_ne_nil q F'))
                have hspec : specLastRecordValue ls k0 = some x.2 := by
                  simp [specLastRecordValue, hF, hx]
                have hspec2 : specLastRecordValue (l :: ls) k0 = some x.2 := by
                  simp [specLastRecordValue, List.filterMap_cons, hp, List.filter_cons,
                        hF, List.getLast?_cons_cons, hx]
                rw [hspec, hspec2]
                simp
          · have hkb : (k0 == k) = false := by simpa [beq_iff_eq] using hk
            rw [index_lookup_apply_ne index k0 v0 k (Ne.symm hk),
                spec_cons_some_ne l ls k k0 v0 hp hkb]

/-! ### Lemmas about splitting file content into lines -/

lemma fileLinesGo_record (l : List Nat) :
    ∀ acc : List Nat, (∀ c ∈ l, c ≠ 10 ∧ c ≠ 13) →
      fileLinesGo acc (l ++ [10]) = [acc.reverse ++ l] := by
  induction l with
  | nil =>
      intro acc h
      simp [fileLinesGo]
  | cons c l' ih =>
      intro acc h
      have hc := h c (by simp)
      cases l' with
      | nil =>
          simp [fileLinesGo, hc.1, hc.2]
      | cons e l'' =>
          have step : fileLinesGo acc ((c :: e :: l'') ++ [10])
              = fileLinesGo (c :: acc) ((e :: l'') ++ [10]) := by
            simp [fileLinesGo, hc.1, hc.2]
          rw [step, ih (c :: acc) fun d hd => h d (by simp [hd])]
          simp

lemma fileLinesGo_append :
    ∀ (n : Nat) (C : List Nat), C.length ≤ n → C.getLast? = some 10 →
      ∀ (acc D : List Nat),
        fileLinesGo acc (C ++ D) = fileLinesGo acc C ++ fileLinesGo [] D := by
  intro n
  induction n with
  | zero =>
      intro C h1 h2 acc D
      have : C = [] := List.eq_nil_of_length_eq_zero (Nat.le_zero.mp h1)
      subst this
      simp at h2
  | succ n ih =>
      intro C h1 h2 acc D
      cases C with
      | nil => simp at h2
      | cons c C' =>
          cases C' with
          | nil =>
              have hc : c = 10 := by simpa using h2
              subst hc
              cases D with
              | nil => simp [fileLinesGo]
              | cons d D' => simp [fileLinesGo]
          | cons d C'' =>
              by_cases hc10 : c = 10
              · subst hc10
                have h2' : (d :: C'').getLast? = some 10 := by
                  rwa [List.getLast?_cons_cons] at h2
                have h1' : (d :: C'').length ≤ n := by
                  simp only [List.length_cons] at h1 ⊢
                  omega
                have lhs : fileLinesGo acc ((10 :: d :: C'') ++ D)
                    = acc.reverse :: fileLinesGo [] ((d :: C'') ++ D) := by
                  simp [fileLinesGo]
                have rhs : fileLinesGo acc (10 :: d :: C'')
                    = acc.reverse :: fileLinesGo [] (d :: C'') := by
                  simp [fileLinesGo]
                rw [lhs, rhs, ih (d :: C'') h1' h2' [] D]
                simp
              · by_cases hc13 : c = 13
                · subst hc13
                  by_cases hd10 : d = 10
                  · subst hd10
                    cases C'' with
                    | nil => simp [fileLinesGo]
                    | cons e C''' =>
                        have h2' : (e :: C''').getLast? = some 10 := by
                          rw [List.getLast?_cons_cons, List.getLast?_cons_cons] at h2
                          exact h2
                        have h1' : (e :: C''').length ≤ n := by
                          simp only [List.length_cons] at h1 ⊢
                          omega
                        have lhs : fileLinesGo acc ((13 :: 10 :: e :: C''') ++ D)
                            = acc.reverse :: fileLinesGo [] ((e :: C''') ++ D) := by
                          simp [fileLinesGo]
                        have rhs : fileLinesGo acc (13 :: 10 :: e :: C''')
                            = acc.reverse :: fileLinesGo [] (e :: C''') := by
                          simp [fileLinesGo]
                        rw [lhs, rhs, ih (e :: C''') h1' h2' [] D]
                        simp
                  · have h2' : (d :: C'').getLast? = some 10 := by
                      rwa [List.getLast?_cons_cons] at h2
                    have h1' : (d :: C'').length ≤ n := by
                      simp only [List.length_cons] at h1 ⊢
                      omega
                    have lhs : fileLinesGo acc ((13 :: d :: C'') ++ D)
                        = acc.reverse :: fileLinesGo [] ((d :: C'') ++ D) := by
                      simp [fileLinesGo, hd10]
                    have rhs : fileLinesGo acc (13 :: d :: C'')
                        = acc.reverse :: fileLinesGo [] (d :: C'') := by
                      simp [fileLinesGo, hd10]
                    rw [lhs, rhs, ih (d :: C'') h1' h2' [] D]
                    simp
                · have h2' : (d :: C'').getLast? = some 10 := by
                    rwa [List.getLast?_cons_cons] at h2
                  have h1' : (d :: C'').length ≤ n := by
                    simp only [List.length_cons] at h1 ⊢
                    omega
                  have lhs : fileLinesGo acc ((c :: d :: C'') ++ D)
                      = fileLinesGo (c :: acc) ((d :: C'') ++ D) := by
                    simp [fileLinesGo, hc10, hc13]
                  have rhs : fileLinesGo acc (c :: d :: C'')
                      = fileLinesGo (c :: acc) (d :: C'') := by
                    simp [fileLinesGo, hc10, hc13]
                  rw [lhs, rhs, ih (d :: C'') h1' h2' (c :: acc) D]

lemma fileLines_append (C D : List Nat)
    (h : C = [] ∨ C.getLast? = some 10) :
    fileLines (C ++ D) = fileLines C ++ fileLines D := by
  rcases h with h | h
  · subst h
    simp [fileLines, fileLinesGo]
  · exact fileLinesGo_append C.length C le_rfl h [] D

lemma fileLines_record (l : List Nat) (h : ∀ c ∈ l, c ≠ 10 ∧ c ≠ 13) :
    fileLines (l ++ [10]) = [l] := by
  unfold fileLines
  rw [fileLinesGo_record l [] h]
  simp

/-! ### Lemmas about `KeyValueStore.set` and the current run -/

lemma set_true_ok (st st' : KeyValueStore) (k v : PyStr)
    (h : KeyValueStore.set true st k v = Except.ok st') :
    st' = { index := _apply_set_in_memory st.index k v,
            content := st.content ++ setRecordLine k v } := by
  unfold KeyValueStore.set at h
  by_cases hu : (utf8Encodable k && utf8Encodable v) = true
  · rw [if_pos hu, if_pos rfl] at h
    injection h with h'
    exact h'.symm
  · rw [if_neg hu] at h
    cases h

lemma set_false_fails (st : KeyValueStore) (k v : PyStr)
    (hk : utf8Encodable k = true) (hv : utf8Encodable v = true) :
    KeyValueStore.set false st k v = Except.error KVError.writeFailed := by
  unfold KeyValueStore.set
  rw [if_pos (by simp [hk, hv]), if_neg (by simp)]

lemma set_bad_encoding (writeOk : Bool) (st : KeyValueStore) (k v : PyStr)
    (h : utf8Encodable k = false ∨ utf8Encodable v = false) :
    KeyValueStore.set writeOk st k v = Except.error KVError.invalidUtf8 := by
  unfold KeyValueStore.set
  rcases h with h | h <;> rw [if_neg (by simp [h])]

lemma runSets_lookup_ne (ops : List (PyStr × PyStr)) :
    ∀ (st : KeyValueStore) (k : PyStr), (∀ p ∈ ops, p.1 ≠ k) →
      index_lookup (runSets st ops).index k = index_lookup st.index k := by
  induction ops with
  | nil => intro st k _; rfl
  | cons op rest ih =>
      obtain ⟨k', v'⟩ := op
      intro st k h
      have hk' : k' ≠ k := h (k', v') (by simp)
      show index_lookup (runSets st ((k', v') :: rest)).index k = _
      unfold runSets
      cases hs : KeyValueStore.set true st k' v' with
      | ok st' =>
          rw [ih st' k fun p hp => h p (by simp [hp])]
          rw [set_true_ok st st' k' v' hs]
          exact index_lookup_apply_ne st.index k' v' k (Ne.symm hk')
      | error e =>
          exact ih st k fun p hp => h p (by simp [hp])

/-! ### Preservation of key uniqueness during replay -/

lemma nodup_keys_lineStep (index : Index) (l : PyStr)
    (h : (index.map Prod.fst).Nodup) :
    ((lineStep index l).map Prod.fst).Nodup := by
  cases hp : parseRecord l with
  | none => rw [lineStep_none index l hp]; exact h
  | some p =>
      obtain ⟨k, v⟩ := p
      rw [lineStep_some index l k v hp]
      exact nodup_keys_apply index k v h

lemma nodup_keys_foldl (lines : List PyStr) :
    ∀ index : Index, (index.map Prod.fst).Nodup →
      ((List.foldl lineStep index lines).map Prod.fst).Nodup := by
  induction lines with
  | nil => intro index h; exact h
  | cons l ls ih =>
      intro index h
      rw [List.foldl_cons]
      exact ih (lineStep index l) (nodup_keys_lineStep index l h)

/-! ### Decoding the record written by one SET -/

lemma parseRecord_setRecord (k v : PyStr)
    (hk : k ≠ []) (hks : ∀ c ∈ k, isSpace c = false)
    (hv : v ≠ []) (hvh : ∀ c t, v = c :: t → isSpace c = false) :
    parseRecord (SETtok ++ 32 :: (k ++ 32 :: v)) = some (k, v) := by
  have h1 : pySplitN 2 (SETtok ++ 32 :: (k ++ 32 :: v))
      = SETtok :: pySplitN 1 (32 :: (k ++ 32 :: v)) :=
    pySplitN_token 1 SETtok (k ++ 32 :: v) (by decide) (by decide)
  have h2 : pySplitN 1 (32 :: (k ++ 32 :: v)) = pySplitN 1 (k ++ 32 :: v) :=
    pySplitN_cons_space 1 32 (k ++ 32 :: v) (by decide)
  have h3 : pySplitN 1 (k ++ 32 :: v) = k :: pySplitN 0 (32 :: v) :=
    pySplitN_token 0 k v hk hks
  have h4 : pySplitN 0 (32 :: v) = pySplitN 0 v :=
    pySplitN_cons_space 0 32 v (by decide)
  have h5 : pySplitN 0 v = [v] := by
    cases v with
    | nil => exact absurd rfl hv
    | cons c t =>
        have hc : isSpace c = false := hvh c t rfl
        simp [pySplitN, dropSpaces_cons_nonspace c t hc]
  unfold parseRecord
  rw [h1, h2, h3, h4, h5]
  simp [pyUpper_SETtok]

/-! ### Case insensitivity of the verb -/

lemma rstrip_space_cons (t : PyStr) :
    rstripSpaces (32 :: t) = [] ∨ rstripSpaces (32 :: t) = 32 :: rstripSpaces t := by
  unfold rstripSpaces
  rw [List.reverse_cons, dropWhile_append_split]
  by_cases h : t.reverse.dropWhile isSpace = []
  · left
    rw [if_pos h]
    simp [List.dropWhile_cons, isSpace_space]
  · right
    rw [if_neg h]
    simp

lemma parse_command_upper (w₁ w₂ t : PyStr) (h : pyUpper w₁ = pyUpper w₂)
    (h₁ : w₁ ≠ []) (hs₁ : ∀ c ∈ w₁, isSpace c = false)
    (h₂ : w₂ ≠ []) (hs₂ : ∀ c ∈ w₂, isSpace c = false) :
    _parse_command (w₁ ++ 32 :: t) = _parse_command (w₂ ++ 32 :: t) := by
  have hstrip₁ := pyStrip_token_append w₁ (32 :: t) h₁ hs₁
  have hstrip₂ := pyStrip_token_append w₂ (32 :: t) h₂ hs₂
  rcases rstrip_space_cons t with hR | hR
  · rw [hR, List.append_nil] at hstrip₁ hstrip₂
    unfold _parse_command
    rw [hstrip₁, hstrip₂, if_neg h₁, if_neg h₂,
        pySplitN_single_token 1 w₁ h₁ hs₁, pySplitN_single_token 1 w₂ h₂ hs₂]
    simp [h]
  · rw [hR] at hstrip₁ hstrip₂
    unfold _parse_command
    rw [hstrip₁, hstrip₂,
        if_neg (by cases w₁ with | nil => exact absurd rfl h₁ | cons c w' => simp),
        if_neg (by cases w₂ with | nil => exact absurd rfl h₂ | cons c w' => simp),
        pySplitN_token 1 w₁ (rstripSpaces t) h₁ hs₁,
        pySplitN_token 1 w₂ (rstripSpaces t) h₂ hs₂]
    simp [h]

lemma load_step_upper (st : LoadResult) (w t : PyStr) (h : pyUpper w = SETtok) :
    load_step st (w ++ 32 :: t) = load_step st (SETtok ++ 32 :: t) := by
  obtain ⟨hw, hsp⟩ := SETtok_shape w h
  have hsplit₁ := pySplitN_token 1 w t hw hsp
  have hsplit₂ := pySplitN_token 1 SETtok t (by decide) (by decide)
  have hstrip₁ := pyStrip_token_append w (32 :: t) hw hsp
  have hstrip₂ := pyStrip_token_append SETtok (32 :: t) (by decide) (by decide)
  have hne₁ : pyStrip (w ++ 32 :: t) ≠ [] := by
    rw [hstrip₁]
    cases w with
    | nil => exact absurd rfl hw
    | cons c w' => simp
  have hne₂ : pyStrip (SETtok ++ 32 :: t) ≠ [] := by
    rw [hstrip₂]
    simp [SETtok]
  unfold load_step
  rw [if_neg hne₁, if_neg hne₂, hsplit₁, hsplit₂]
  cases hp : pySplitN 1 (32 :: t) with
  | nil => rfl
  | cons a rest =>
      cases rest with
      | nil => rfl
      | cons b rest2 =>
          cases rest2 with
          | nil => simp [h, pyUpper_SETtok]
          | cons c rest3 => rfl

lemma nonspace_not_newline (c : Nat) (h : isSpace c = false) : c ≠ 10 ∧ c ≠ 13 := by
  constructor <;> rintro rfl <;> exact absurd h (by decide)

/-! ### The claims -/

/-- Claim C1, counterexample: the claim predicts that replay stops at the
first malformed record (treating it as the last record and truncating
there), so no later record could be applied.  On the concrete log whose
first line `BAD` is malformed and whose second line is `SET g t`, the
code applies the later record: after recovery the key `g` maps to `t`,
so the malformed record was skipped and replay continued past it. -/
theorem c1_truncate_counterexample :
    parseRecord [66, 65, 68] = none ∧
    (load_data [] [[66, 65, 68], [83, 69, 84, 32, 103, 32, 116]]).skipped = 1 ∧
    index_lookup (load_data [] [[66, 65, 68], [83, 69, 84, 32, 103, 32, 116]]).index [103]
      = some [116] := by decide

/-- Claim C1 (amended): when replay encounters a malformed record it
skips it — the index is unchanged by that line, the skipped counter is
incremented — and replay continues with the later records; the log is
not truncated and recovery still reports success with its counters. -/
theorem c1_malformed_skip_and_continue (st : LoadResult) (index : Index)
    (l : PyStr) (rest : List PyStr)
    (h1 : pyStrip l ≠ []) (h2 : parseRecord l = none) :
    load_step st l = { st with total := st.total + 1, skipped := st.skipped + 1 } ∧
    (load_data index (l :: rest)).index = (load_data index rest).index := by
  refine ⟨load_step_malformed st l h1 h2, ?_⟩
  rw [load_data_index, load_data_index, List.foldl_cons, lineStep_none index l h2]

/-- Witness for C1 (amended) at the malformed line `BAD` followed by
`SET h w`. -/
theorem c1_malformed_skip_and_continue_witness :
    load_step ⟨[], 0, 0, 0⟩ [66, 65, 68] = ⟨[], 1, 0, 1⟩ ∧
    (load_data [] [[66, 65, 68], [83, 69, 84, 32, 104, 32, 119]]).index
      = (load_data [] [[83, 69, 84, 32, 104, 32, 119]]).index :=
  c1_malformed_skip_and_continue ⟨[], 0, 0, 0⟩ [] [66, 65, 68]
    [[83, 69, 84, 32, 104, 32, 119]] (by decide) (by decide)

/-- Claim C2, counterexample: for the empty key and value `v`, the SET
succeeds and appends the line `SET  v`, but on restart that line splits
into only two fields and is skipped as malformed, so GET of the empty
key returns the not-found sentinel instead of `v`. -/
theorem c2_persistence_counterexample :
    KeyValueStore.set true { index := [], content := [] } [] [118]
      = Except.ok { index := [([], [118])], content := [83, 69, 84, 32, 32, 118, 10] } ∧
    (KeyValueStore.init [83, 69, 84, 32, 32, 118, 10]).get [] = none ∧
    ¬ (KeyValueStore.init [83, 69, 84, 32, 32, 118, 10]).get [] = some [118] := by
  decide

/-- Claim C2 (amended): persistence holds for every key that is nonempty
and whitespace-free and every value that is nonempty, does not start
with whitespace and contains no newline or carriage return, provided the
prior log content is empty or newline-terminated (as every append leaves
it): after a successful `SET k v` and a restart that replays the same
file, `GET k` returns `v`. -/
theorem c2_persistence_amended (st st' : KeyValueStore) (k v : PyStr)
    (hlog : st.content = [] ∨ st.content.getLast? = some 10)
    (hk : k ≠ []) (hks : ∀ c ∈ k, isSpace c = false)
    (hv : v ≠ []) (hvh : isSpace v.headI = false)
    (hvnl : ∀ c ∈ v, c ≠ 10 ∧ c ≠ 13)
    (hset : KeyValueStore.set true st k v = Except.ok st') :
    (KeyValueStore.init st'.content).get k = some v := by
  have hvh' : ∀ c t, v = c :: t → isSpace c = false := by
    intro c t hv'
    subst hv'
    simpa using hvh
  have hst' := set_true_ok st st' k v hset
  subst hst'
  have hrec : setRecordLine k v = (SETtok ++ 32 :: (k ++ 32 :: v)) ++ [10] := by
    simp [setRecordLine]
  have hbody : ∀ c ∈ SETtok ++ 32 :: (k ++ 32 :: v), c ≠ 10 ∧ c ≠ 13 := by
    intro c hc
    simp only [SETtok, List.mem_append, List.mem_cons] at hc
    rcases hc with hc | hc | hc
    · simp only [List.mem_cons, List.not_mem_nil] at hc
      rcases hc with rfl | rfl | rfl | hc
      · omega
      · omega
      · omega
      · cases hc
    · omega
    · rcases hc with hc | hc | hc
      · exact nonspace_not_newline c (hks c hc)
      · omega
      · exact hvnl c hc
  have hlines : fileLines (st.content ++ setRecordLine k v)
      = fileLines st.content ++ [SETtok ++ 32 :: (k ++ 32 :: v)] := by
    rw [hrec, fileLines_append st.content _ hlog,
        fileLines_record (SETtok ++ 32 :: (k ++ 32 :: v)) hbody]
  show index_lookup (load_data []
      (fileLines (st.content ++ setRecordLine k v))).index k = some v
  rw [hlines, load_data_index, List.foldl_append, List.foldl_cons, List.foldl_nil,
      lineStep_some _ _ k v (parseRecord_setRecord k v hk hks hv hvh')]
  exact index_lookup_apply_self _ k v

/-- Witness for C2 (amended): `SET a b` on an empty store, then restart. -/
theorem c2_persistence_amended_witness :
    (KeyValueStore.init [83, 69, 84, 32, 97, 32, 98, 10]).get [97] = some [98] :=
  c2_persistence_amended { index := [], content := [] }
    { index := [([97], [98])], content := [83, 69, 84, 32, 97, 32, 98, 10] }
    [97] [98] (Or.inl rfl) (by decide) (by decide) (by decide) (by decide)
    (by decide) (by decide)

/-- Claim C3: after recovery the index maps every key to the value of
the last well-formed record in the log with that key, and a key with no
well-formed record is absent (the lookup is `none`). -/
theorem c3_recovery_invariant (lines : List PyStr) (k : PyStr) :
    index_lookup (load_data [] lines).index k = specLastRecordValue lines k := by
  rw [load_data_index, lookup_foldl_lineStep]
  cases specLastRecordValue lines k <;> rfl

/-- Claim C4: with a failing OS write the SET raises the distinct
write-failure error (`KVError("write failed")`, not the encoding error)
and the index is untouched; the index and the log are updated exactly
when the durable append reports success. -/
theorem c4_write_failure (st st' : KeyValueStore) (k v : PyStr)
    (hk : utf8Encodable k = true) (hv : utf8Encodable v = true)
    (hok : KeyValueStore.set true st k v = Except.ok st') :
    KeyValueStore.set false st k v = Except.error KVError.writeFailed ∧
    KVError.writeFailed ≠ KVError.invalidUtf8 ∧
    st'.index = _apply_set_in_memory st.index k v ∧
    st'.content = st.content ++ setRecordLine k v := by
  refine ⟨set_false_fails st k v hk hv, by decide, ?_, ?_⟩ <;>
    rw [set_true_ok st st' k v hok]

/-- Witness for C4 at `SET a b` on the empty store. -/
theorem c4_write_failure_witness :
    KeyValueStore.set false { index := [], content := [] } [97] [98]
      = Except.error KVError.writeFailed ∧
    KVError.writeFailed ≠ KVError.invalidUtf8 ∧
    ({ index := [([97], [98])], content := [83, 69, 84, 32, 97, 32, 98, 10] }
        : KeyValueStore).index = _apply_set_in_memory [] [97] [98] ∧
    ({ index := [([97], [98])], content := [83, 69, 84, 32, 97, 32, 98, 10] }
        : KeyValueStore).content = [] ++ setRecordLine [97] [98] :=
  c4_write_failure { index := [], content := [] }
    { index := [([97], [98])], content := [83, 69, 84, 32, 97, 32, 98, 10] }
    [97] [98] (by decide) (by decide) (by decide)

/-- Claim C5, counterexample: the empty key cannot be represented in the
`SET <key> <value>` text framing (the key must be a nonempty
whitespace-free token), yet `SET` with the empty key succeeds, appends
the bytes `SET  w\n`, and the single record those bytes contain does not
decode during replay — so the write is not rejected at write time and an
undecodable record is written. -/
theorem c5_encoding_counterexample :
    KeyValueStore.set true { index := [], content := [] } [] [119]
      = Except.ok { index := [([], [119])], content := [83, 69, 84, 32, 32, 119, 10] } ∧
    fileLines [83, 69, 84, 32, 32, 119, 10] = [[83, 69, 84, 32, 32, 119]] ∧
    parseRecord [83, 69, 84, 32, 32, 119] = none := by decide

/-- Claim C5 (amended): the only write-time representability check is
strict UTF-8 encodability — a key or value containing a surrogate code
point makes SET fail cleanly with the encoding error before any bytes
are appended; keys and values that merely break the text framing (empty
or whitespace-containing keys, values starting with whitespace or
containing newlines) are not rejected and can produce records that
replay does not decode. -/
theorem c5_encoding_amended (writeOk : Bool) (st : KeyValueStore) (k v : PyStr)
    (h : utf8Encodable k = false ∨ utf8Encodable v = false) :
    KeyValueStore.set writeOk st k v = Except.error KVError.invalidUtf8 :=
  set_bad_encoding writeOk st k v h

/-- Witness for C5 (amended) at a lone-surrogate key. -/
theorem c5_encoding_amended_witness :
    KeyValueStore.set true { index := [], content := [] } [55296] [97]
      = Except.error KVError.invalidUtf8 :=
  c5_encoding_amended true { index := [], content := [] } [55296] [97] (by decide)

/-- Claim C6: a successful `SET k v` immediately followed by `GET k` in
the same process returns `v`, for every key and value. -/
theorem c6_round_trip (st st' : KeyValueStore) (k v : PyStr)
    (h : KeyValueStore.set true st k v = Except.ok st') :
    st'.get k = some v := by
  rw [set_true_ok st st' k v h]
  exact index_lookup_apply_self st.index k v

/-- Witness for C6 at `SET a b` on the empty store. -/
theorem c6_round_trip_witness :
    ({ index := [([97], [98])], content := [83, 69, 84, 32, 97, 32, 98, 10] }
        : KeyValueStore).get [97] = some [98] :=
  c6_round_trip { index := [], content := [] }
    { index := [([97], [98])], content := [83, 69, 84, 32, 97, 32, 98, 10] }
    [97] [98] (by decide)

/-- Claim C7: `SET k v1; SET k v2; GET k` returns `v2` — the most
recent write for a key wins. -/
theorem c7_last_write_wins (st st₁ st₂ : KeyValueStore) (k v₁ v₂ : PyStr)
    (h₁ : KeyValueStore.set true st k v₁ = Except.ok st₁)
    (h₂ : KeyValueStore.set true st₁ k v₂ = Except.ok st₂) :
    st₂.get k = some v₂ := by
  rw [set_true_ok st₁ st₂ k v₂ h₂]
  exact index_lookup_apply_self st₁.index k v₂

/-- Witness for C7 at `SET k 1; SET k 2; GET k` on the empty store. -/
theorem c7_last_write_wins_witness :
    ({ index := [([107], [50])],
       content := [83, 69, 84, 32, 107, 32, 49, 10, 83, 69, 84, 32, 107, 32, 50, 10] }
        : KeyValueStore).get [107] = some [50] :=
  c7_last_write_wins { index := [], content := [] }
    { index := [([107], [49])], content := [83, 69, 84, 32, 107, 32, 49, 10] }
    { index := [([107], [50])],
      content := [83, 69, 84, 32, 107, 32, 49, 10, 83, 69, 84, 32, 107, 32, 50, 10] }
    [107] [49] [50] (by decide) (by decide)

/-- Claim C8: a key with no well-formed record in the replayed log and
never set in the current run looks up as `none`, and the command
interface answers with the line `NULL`. -/
theorem c8_absent_key (C : List Nat) (ops : List (PyStr × PyStr)) (k : PyStr)
    (hlog : specLastRecordValue (fileLines C) k = none)
    (hops : ∀ p ∈ ops, p.1 ≠ k) :
    (runSets (KeyValueStore.init C) ops).get k = none ∧
    getResponse (runSets (KeyValueStore.init C) ops) k = NULLtok := by
  have h1 : (runSets (KeyValueStore.init C) ops).get k = none := by
    show index_lookup (runSets (KeyValueStore.init C) ops).index k = none
    rw [runSets_lookup_ne ops (KeyValueStore.init C) k hops]
    show index_lookup (load_data [] (fileLines C)).index k = none
    rw [load_data_index, lookup_foldl_lineStep, hlog]
    rfl
  refine ⟨h1, ?_⟩
  unfold getResponse
  rw [h1]

/-- Witness for C8: the log holds only `SET a b`, the run sets only `b`,
and the key `z` was never set. -/
theorem c8_absent_key_witness :
    (runSets (KeyValueStore.init [83, 69, 84, 32, 97, 32, 98, 10])
        [([98], [99])]).get [122] = none ∧
    getResponse (runSets (KeyValueStore.init [83, 69, 84, 32, 97, 32, 98, 10])
        [([98], [99])]) [122] = NULLtok :=
  c8_absent_key [83, 69, 84, 32, 97, 32, 98, 10] [([98], [99])] [122]
    (by decide) (by decide)

/-- Claim C9: the in-memory index never holds two pairs with the same
key — the empty initial index has no duplicate keys, the property is
preserved by every upsert (`_apply_set_in_memory`, used both during
replay and by SET) and by a whole replay, and under it each lookup has
at most one matching entry. -/
theorem c9_index_unique_keys (index : Index) (k v : PyStr) (lines : List PyStr)
    (h : (index.map Prod.fst).Nodup) :
    ((([] : Index)).map Prod.fst).Nodup ∧
    ((_apply_set_in_memory index k v).map Prod.fst).Nodup ∧
    (((load_data index lines).index).map Prod.fst).Nodup ∧
    (index.filter (fun p => p.1 == k)).length ≤ 1 := by
  refine ⟨by simp, nodup_keys_apply index k v h, ?_,
    filter_key_length_le_one index k h⟩
  rw [load_data_index]
  exact nodup_keys_foldl lines index h

/-- Witness for C9 at a one-entry index, a SET and a replayed line. -/
theorem c9_index_unique_keys_witness :
    ((([] : Index)).map Prod.fst).Nodup ∧
    ((_apply_set_in_memory [([97], [98])] [97] [99]).map Prod.fst).Nodup ∧
    (((load_data [([97], [98])] [[83, 69, 84, 32, 100, 32, 101]]).index).map
        Prod.fst).Nodup ∧
    (([([97], [98])] : Index).filter (fun p => p.1 == [97])).length ≤ 1 :=
  c9_index_unique_keys [([97], [98])] [97] [99]
    [[83, 69, 84, 32, 100, 32, 101]] (by decide)

/-- Claim C10: command-verb matching is case-insensitive both during log
replay and at the command interface — a log line whose first token is
any capitalization of `SET` replays exactly like the upper-case form,
and a command line whose first token is any capitalization of `SET` or
`GET` parses exactly like the upper-case form. -/
theorem c10_case_insensitive_verb (w t : PyStr) (st : LoadResult) :
    (pyUpper w = SETtok →
      load_step st (w ++ 32 :: t) = load_step st (SETtok ++ 32 :: t) ∧
      _parse_command (w ++ 32 :: t) = _parse_command (SETtok ++ 32 :: t)) ∧
    (pyUpper w = GETtok →
      _parse_command (w ++ 32 :: t) = _parse_command (GETtok ++ 32 :: t)) := by
  constructor
  · intro h
    obtain ⟨hw, hsp⟩ := SETtok_shape w h
    exact ⟨load_step_upper st w t h,
      parse_command_upper w SETtok t (by rw [h, pyUpper_SETtok]) hw hsp
        (by decide) (by decide)⟩
  · intro h
    obtain ⟨hw, hsp⟩ := GETtok_shape w h
    exact parse_command_upper w GETtok t (by rw [h, pyUpper_GETtok]) hw hsp
      (by decide) (by decide)

/-- Witness for C10 at the lower-case log/command line `set k v` and the
lower-case command `get k`. -/
theorem c10_case_insensitive_verb_witness :
    (load_step ⟨[], 0, 0, 0⟩ ([115, 101, 116] ++ 32 :: [107, 32, 118])
        = load_step ⟨[], 0, 0, 0⟩ (SETtok ++ 32 :: [107, 32, 118]) ∧
      _parse_command ([115, 101, 116] ++ 32 :: [107, 32, 118])
        = _parse_command (SETtok ++ 32 :: [107, 32, 118])) ∧
    _parse_command ([103, 101, 116] ++ 32 :: [107])
      = _parse_command (GETtok ++ 32 :: [107]) :=
  ⟨(c10_case_insensitive_verb [115, 101, 116] [107, 32, 118] ⟨[], 0, 0, 0⟩).1
      (by decide),
   (c10_case_insensitive_verb [103, 101, 116] [107] ⟨[], 0, 0, 0⟩).2 (by decide)⟩
